import Mathlib

/-!
Verification of the GitBatchManager core (src/main.py) against its
natural-language specification.

The repository shells out to git subprocesses; every subprocess invocation is
modelled by an environment record holding the observable result of that
invocation (exit code, captured stdout/stderr text, or a timeout marker).
The Python control flow that consumes those results is translated function by
function:

* `get_sync_status`   — GitRepoScanner.get_sync_status (src/main.py:326-412)
* `scanOne`/`scanRepos` — the per-directory body of GitRepoScanner.run
                          (src/main.py:231-324)
* `execGit`           — GitWorker._execute_git_command (src/main.py:142-215)
* `processRepo`       — the per-repository body of GitWorker.run
                          (src/main.py:52-138)
* `runWorker`         — the GitWorker.run loop (src/main.py:44-140)

Python string primitives (str.strip, str.lower, substring membership,
str.split, str.replace) are modelled over character lists so that all
definitions evaluate inside the kernel.
-/

namespace GitBatchManager

/-- Whitespace characters stripped by Python str.strip (the forms git emits). -/
def isSpaceChar (c : Char) : Bool := c = ' ' || c = '\t' || c = '\n' || c = '\r'

/-- Python str.strip(): remove leading and trailing whitespace. -/
def pyStrip (s : String) : String :=
  String.mk (((s.toList.dropWhile isSpaceChar).reverse.dropWhile isSpaceChar).reverse)

/-- Python str.lower() on the ASCII output git produces. -/
def pyLower (s : String) : String := String.mk (s.toList.map Char.toLower)

/-- Python substring test: needle in hay. -/
def pyIn (needle hay : String) : Bool := decide (needle.toList <:+: hay.toList)

/-! ## SyncClassifier: GitRepoScanner.get_sync_status (src/main.py:326-412)

Each git invocation made by get_sync_status is recorded in a `SyncEnv`.
The dry-run fetch is run with `timeout=10`; `subprocess.run` either completes
(with any exit code — the code never inspects it) or raises `TimeoutExpired`,
which the `except` clause at src/main.py:409 turns into the result "unknown".
The other invocations carry no timeout and are modelled by exit code plus
captured stdout. -/

/-- Result of the dry-run fetch probe: completed within the 10s bound
(with some exit code) or raised TimeoutExpired. -/
inductive FetchOutcome
  | completed (rc : Int)
  | timedOut
deriving DecidableEq, Repr

/-- Stripped stdout of a `git rev-list --count` call, as seen by
`int(stdout.strip() or 0)`: empty (Python falls back to 0), a decimal count,
or text that makes `int` raise ValueError. -/
inductive CountText
  | empty
  | num (n : Nat)
  | malformed
deriving DecidableEq, Repr

/-- `int(s or 0)`: empty gives 0, a count gives itself, malformed raises
(`none`, routed to the except clause). -/
def parseCount : CountText → Option Nat
  | .empty => some 0
  | .num n => some n
  | .malformed => none

/-- Observable results of the git subprocesses run by get_sync_status. -/
structure SyncEnv where
  fetch : FetchOutcome
  remoteCheckRc : Int
  localHashRc : Int
  localHashOut : String
  remoteHashRc : Int
  remoteHashOut : String
  aheadRc : Int
  aheadOut : CountText
  behindRc : Int
  behindOut : CountText
deriving DecidableEq, Repr

/-- The four-way classification at src/main.py:400-407. -/
def classifyCounts (a b : Nat) : String :=
  if 0 < a ∧ 0 < b then "diverged"
  else if 0 < a then "ahead"
  else if 0 < b then "behind"
  else "synced"

/-- GitRepoScanner.get_sync_status (src/main.py:326-412). -/
def get_sync_status (env : SyncEnv) : String :=
  match env.fetch with
  | .timedOut => "unknown"
  | .completed _ =>
    if env.remoteCheckRc ≠ 0 then "no_remote"
    else if env.localHashRc ≠ 0 ∨ env.remoteHashRc ≠ 0 then "unknown"
    else if pyStrip env.localHashOut = pyStrip env.remoteHashOut then "synced"
    else if env.aheadRc = 0 ∧ env.behindRc = 0 then
      match parseCount env.aheadOut, parseCount env.behindOut with
      | some a, some b => classifyCounts a b
      | _, _ => "unknown"
    else "unknown"

lemma classifyCounts_ne_no_remote (a b : Nat) : classifyCounts a b ≠ ("no_remote" : String) := by
  unfold classifyCounts
  split
  · decide
  · split
    · decide
    · split
      · decide
      · decide

end GitBatchManager

namespace GitBatchManager

/-- C1: when the remote branch resolves, both commit ids resolve and differ,
and both count queries succeed, the classifier returns diverged.ahead/behind
by the signs of the two counts, and synced when both counts are zero. -/
theorem sync_classifier_four_way (env : SyncEnv) (a b : Nat)
    (hf : env.fetch ≠ FetchOutcome.timedOut)
    (hr : env.remoteCheckRc = 0)
    (hl : env.localHashRc = 0) (hh : env.remoteHashRc = 0)
    (hne : pyStrip env.localHashOut ≠ pyStrip env.remoteHashOut)
    (ha : env.aheadRc = 0) (hb : env.behindRc = 0)
    (hao : env.aheadOut = CountText.num a) (hbo : env.behindOut = CountText.num b) :
    get_sync_status env =
      if 0 < a ∧ 0 < b then "diverged"
      else if 0 < a then "ahead"
      else if 0 < b then "behind"
      else "synced" := by
  obtain ⟨f, rrc, lrc, lo, rhc, ro, arc, ao, brc, bo⟩ := env
  cases f with
  | timedOut => exact absurd rfl hf
  | completed rc =>
    simp only at hr hl hh hne ha hb hao hbo
    subst hr hl hh ha hb hao hbo
    simp [get_sync_status, hne, parseCount, classifyCounts]

/-- Witness for C1 at a concrete diverged input. -/
theorem sync_classifier_four_way_witness :
    get_sync_status
      { fetch := FetchOutcome.completed 0, remoteCheckRc := 0,
        localHashRc := 0, localHashOut := "aaa",
        remoteHashRc := 0, remoteHashOut := "bbb",
        aheadRc := 0, aheadOut := CountText.num 2,
        behindRc := 0, behindOut := CountText.num 3 } = "diverged" := by
  have h := sync_classifier_four_way
    { fetch := FetchOutcome.completed 0, remoteCheckRc := 0,
      localHashRc := 0, localHashOut := "aaa",
      remoteHashRc := 0, remoteHashOut := "bbb",
      aheadRc := 0, aheadOut := CountText.num 2,
      behindRc := 0, behindOut := CountText.num 3 }
    2 3 (by decide) rfl rfl rfl (by decide) rfl rfl rfl rfl
  simpa using h

/-- C2 amended: the classifier returns no_remote exactly when the dry-run
fetch did not time out and resolving origin/branch fails; a fetch timeout
yields unknown even when the remote branch would not resolve. -/
theorem no_remote_iff_remote_unresolved (env : SyncEnv) :
    get_sync_status env = "no_remote" ↔
      env.fetch ≠ FetchOutcome.timedOut ∧ env.remoteCheckRc ≠ 0 := by
  obtain ⟨f, rrc, lrc, lo, rhc, ro, arc, ao, brc, bo⟩ := env
  cases f with
  | timedOut => simp [get_sync_status]
  | completed rc =>
    simp only [get_sync_status, ne_eq, reduceCtorEq, not_false_eq_true, true_and]
    by_cases h : rrc = 0
    · simp only [h, eq_self_iff_true, not_true, if_false, iff_false]
      intro hres
      revert hres
      split
      · decide
      · split
        · decide
        · split
          · split
            · intro hres
              exact absurd hres (classifyCounts_ne_no_remote _ _)
            · decide
          · decide
    · simp [h]

/-- C2 counterexample: a repository where origin/branch fails to resolve but
the dry-run fetch times out is classified unknown, not no_remote. -/
theorem no_remote_timeout_counterexample :
    get_sync_status
      { fetch := FetchOutcome.timedOut, remoteCheckRc := 1,
        localHashRc := 0, localHashOut := "aaa",
        remoteHashRc := 0, remoteHashOut := "aaa",
        aheadRc := 0, aheadOut := CountText.empty,
        behindRc := 0, behindOut := CountText.empty } = "unknown" ∧
    ("unknown" : String) ≠ "no_remote" := by
  constructor
  · rfl
  · decide

/-- C3 amended: the exit code of a completed dry-run fetch never affects the
classification (a failed probe is non-fatal), but a probe that hits its 10s
timeout collapses the classification to unknown. -/
theorem fetch_exit_ignored_timeout_fatal (env : SyncEnv) (rc rc' : Int) :
    get_sync_status { env with fetch := FetchOutcome.completed rc } =
      get_sync_status { env with fetch := FetchOutcome.completed rc' } ∧
    get_sync_status { env with fetch := FetchOutcome.timedOut } = "unknown" :=
  ⟨rfl, rfl⟩

/-- C3 counterexample: with identical repository state, a probe that times out
alone flips the classification from ahead to unknown. -/
theorem probe_failure_counterexample :
    get_sync_status
      { fetch := FetchOutcome.timedOut, remoteCheckRc := 0,
        localHashRc := 0, localHashOut := "aaa",
        remoteHashRc := 0, remoteHashOut := "bbb",
        aheadRc := 0, aheadOut := CountText.num 2,
        behindRc := 0, behindOut := CountText.empty } = "unknown" ∧
    get_sync_status
      { fetch := FetchOutcome.completed 1, remoteCheckRc := 0,
        localHashRc := 0, localHashOut := "aaa",
        remoteHashRc := 0, remoteHashOut := "bbb",
        aheadRc := 0, aheadOut := CountText.num 2,
        behindRc := 0, behindOut := CountText.empty } = "ahead" := by
  constructor
  · rfl
  · decide

end GitBatchManager

namespace GitBatchManager

/-! ## RepositoryScanner: the loop body of GitRepoScanner.run
(src/main.py:231-324)

Each subdirectory entry is modelled by a `ScanEnv`: whether it holds a .git
directory and, for each of the four check=True sub-queries (branch, status,
last-commit metadata, remote URL), either the captured stdout or `none` when
the call raised SubprocessError. The sync classification receives its own
`SyncEnv` as above. -/

/-- Removes every occurrence of "git@" left to right:
Python parts[0].replace("git@", "") at src/main.py:310. -/
def stripGitAt : List Char → List Char
  | 'g' :: 'i' :: 't' :: '@' :: rest => stripGitAt rest
  | c :: rest => c :: stripGitAt rest
  | [] => []

/-- Python s.split(sep, 1): the text before the first separator and the rest;
none when the separator does not occur (len(parts) == 1). -/
def splitOnce (s : String) (sep : Char) : Option (String × String) :=
  match s.toList.findIdx? (· = sep) with
  | none => none
  | some i => some (String.mk (s.toList.take i), String.mk (s.toList.drop (i + 1)))

/-- Python s.split(sep) for a single-character separator. -/
def splitAll (sep : Char) : List Char → List (List Char)
  | [] => [[]]
  | c :: rest =>
    if c = sep then [] :: splitAll sep rest
    else
      match splitAll sep rest with
      | [] => [[c]]
      | h :: t => (c :: h) :: t

/-- The SSH-to-HTTPS remote URL rewrite at src/main.py:306-314. -/
def normalizeRemote (remote_url : String) : String :=
  if List.isPrefixOf ("git@".toList) remote_url.toList then
    match splitOnce remote_url ':' with
    | some (front, path0) =>
      let domain := String.mk (stripGitAt front.toList)
      let path := if List.isSuffixOf (".git".toList) path0.toList
                  then String.mk (path0.toList.take (path0.toList.length - 4))
                  else path0
      ("https://") ++ domain ++ ("/") ++ path
    | none => remote_url
  else remote_url

/-- Observable results of one directory entry's sub-queries in
GitRepoScanner.run. `none` records that the check=True subprocess call
raised SubprocessError. -/
structure ScanEnv where
  name : String
  path : String
  isGitRepo : Bool
  branchQ : Option String
  statusQ : Option String
  sync : SyncEnv
  logQ : Option String
  remoteQ : Option String
deriving DecidableEq, Repr

/-- The eight fields of repo_found_signal (src/main.py:318). -/
structure Descriptor where
  name : String
  path : String
  branch : String
  status : String
  lastCommit : String
  author : String
  remoteUrl : String
  syncStatus : String
deriving DecidableEq, Repr

/-- The descriptor assembled for one git repository
(src/main.py:244-318). -/
def mkDescriptor (e : ScanEnv) : Descriptor :=
  { name := e.name
    path := e.path
    branch := match e.branchQ with
      | some o => pyStrip o
      | none => "unknown"
    status := match e.statusQ with
      | some o => if pyStrip o = "" then "clean" else "modified"
      | none => "unknown"
    lastCommit := match e.logQ with
      | some o => String.mk (((splitAll '|' (pyStrip o).toList).head?).getD [])
      | none => ""
    author := match e.logQ with
      | some o => String.mk ((((splitAll '|' (pyStrip o).toList).drop 1).head?).getD [])
      | none => ""
    remoteUrl := match e.remoteQ with
      | some o => normalizeRemote (pyStrip o)
      | none => ""
    syncStatus := get_sync_status e.sync }

/-- The body of GitRepoScanner.run for one directory entry: only directories
containing a .git metadata directory produce a descriptor
(src/main.py:241-318). -/
def scanOne (e : ScanEnv) : Option Descriptor :=
  if e.isGitRepo then some (mkDescriptor e) else none

/-- The GitRepoScanner.run loop over subdirectories with the running flag
held true (src/main.py:237-318). -/
def scanRepos (entries : List ScanEnv) : List Descriptor :=
  entries.filterMap scanOne

end GitBatchManager

namespace GitBatchManager

/-- C6: each of the four sub-query results determines only its own descriptor
field, a failed sub-query degrades that field to its unknown/empty sentinel,
a repository whose sub-queries all fail still yields a descriptor, and one
entry's results never affect how its siblings are scanned. -/
theorem scan_subquery_isolation (e e' : ScanEnv)
    (h : e.isGitRepo = true) (h' : e'.isGitRepo = true) :
    ∃ d d', scanOne e = some d ∧ scanOne e' = some d' ∧
      (e.branchQ = e'.branchQ → d.branch = d'.branch) ∧
      (e.statusQ = e'.statusQ → d.status = d'.status) ∧
      (e.logQ = e'.logQ → d.lastCommit = d'.lastCommit ∧ d.author = d'.author) ∧
      (e.remoteQ = e'.remoteQ → d.remoteUrl = d'.remoteUrl) ∧
      (e.branchQ = none → d.branch = "unknown") ∧
      (e.statusQ = none → d.status = "unknown") ∧
      (e.logQ = none → d.lastCommit = "" ∧ d.author = "") ∧
      (e.remoteQ = none → d.remoteUrl = "") ∧
      (∀ pre post, scanRepos (pre ++ e :: post) =
        scanRepos pre ++ d :: scanRepos post) := by
  refine ⟨mkDescriptor e, mkDescriptor e', by simp [scanOne, h], by simp [scanOne, h'],
    ?_, ?_, ?_, ?_, ?_, ?_, ?_, ?_, ?_⟩
  · intro heq; simp [mkDescriptor, heq]
  · intro heq; simp [mkDescriptor, heq]
  · intro heq; simp [mkDescriptor, heq]
  · intro heq; simp [mkDescriptor, heq]
  · intro heq; simp [mkDescriptor, heq]
  · intro heq; simp [mkDescriptor, heq]
  · intro heq; simp [mkDescriptor, heq]
  · intro heq; simp [mkDescriptor, heq]
  · intro pre post
    simp [scanRepos, List.filterMap_append, List.filterMap_cons, scanOne, h]

/-- A corrupted repository: every sub-query raises, and inside the sync
classification the probe completes with a non-zero exit and the remote branch
fails to resolve. -/
def corruptedRepoEnv : ScanEnv :=
  { name := "broken", path := "/tmp/broken", isGitRepo := true,
    branchQ := none, statusQ := none,
    sync := { fetch := FetchOutcome.completed 128, remoteCheckRc := 128,
              localHashRc := 128, localHashOut := "",
              remoteHashRc := 128, remoteHashOut := "",
              aheadRc := 128, aheadOut := CountText.empty,
              behindRc := 128, behindOut := CountText.empty },
    logQ := none, remoteQ := none }

/-- A healthy sibling repository. -/
def healthyRepoEnv : ScanEnv :=
  { name := "good", path := "/tmp/good", isGitRepo := true,
    branchQ := some "main\n", statusQ := some "",
    sync := { fetch := FetchOutcome.completed 0, remoteCheckRc := 0,
              localHashRc := 0, localHashOut := "aaa\n",
              remoteHashRc := 0, remoteHashOut := "aaa\n",
              aheadRc := 0, aheadOut := CountText.empty,
              behindRc := 0, behindOut := CountText.empty },
    logQ := some "2025-01-02 03:04:05|Alice\n",
    remoteQ := some "git@example.com:org/repo.git" }

/-- Witness for C6: the all-failing repository still yields a descriptor with
sentinel fields for the four sub-queries, and the healthy sibling in the same
scan is unaffected. -/
theorem scan_subquery_isolation_witness :
    ∃ d, scanOne corruptedRepoEnv = some d ∧
      d.branch = "unknown" ∧ d.status = "unknown" ∧
      d.lastCommit = "" ∧ d.author = "" ∧ d.remoteUrl = "" ∧
      scanRepos [healthyRepoEnv, corruptedRepoEnv] =
        scanRepos [healthyRepoEnv] ++ d :: scanRepos [] := by
  obtain ⟨d, -, hd, -, -, -, -, -, hb, hs, hl, hr, hsib⟩ :=
    scan_subquery_isolation corruptedRepoEnv corruptedRepoEnv rfl rfl
  exact ⟨d, hd, hb rfl, hs rfl, (hl rfl).1, (hl rfl).2, hr rfl,
    hsib [healthyRepoEnv] []⟩

/-- C7 counterexample: an SSH-style remote with user alice instead of git is
emitted unchanged, not rewritten to https form. -/
theorem ssh_normalization_counterexample :
    ∃ d, scanOne
      { name := "r", path := "/tmp/r", isGitRepo := true,
        branchQ := some "main", statusQ := some "",
        sync := { fetch := FetchOutcome.completed 0, remoteCheckRc := 0,
                  localHashRc := 0, localHashOut := "aaa",
                  remoteHashRc := 0, remoteHashOut := "aaa",
                  aheadRc := 0, aheadOut := CountText.empty,
                  behindRc := 0, behindOut := CountText.empty },
        logQ := some "2025-01-02 03:04:05|Alice",
        remoteQ := some "alice@example.com:org/repo.git" } = some d ∧
      d.remoteUrl = "alice@example.com:org/repo.git" ∧
      d.remoteUrl ≠ "https://example.com/org/repo" := by
  refine ⟨_, rfl, by decide, by decide⟩

/-- C7 amended: the SSH-to-HTTPS rewrite fires exactly for remotes whose
stripped text starts with "git@" — git@example.com:org/repo.git becomes
https://example.com/org/repo — while any other remote is emitted as stripped,
and a missing remote yields the empty string. -/
theorem ssh_normalization_amended (e : ScanEnv) (h : e.isGitRepo = true) :
    ∃ d, scanOne e = some d ∧
      (e.remoteQ = none → d.remoteUrl = "") ∧
      (∀ r, e.remoteQ = some r →
        ¬ ("git@".toList <+: (pyStrip r).toList) →
        d.remoteUrl = pyStrip r) ∧
      (e.remoteQ = some "git@example.com:org/repo.git" →
        d.remoteUrl = "https://example.com/org/repo") := by
  refine ⟨mkDescriptor e, by simp [scanOne, h], ?_, ?_, ?_⟩
  · intro hn; simp [mkDescriptor, hn]
  · intro r hr hpre
    have hnorm : normalizeRemote (pyStrip r) = pyStrip r := by
      unfold normalizeRemote
      exact if_neg (by simpa using hpre)
    simp [mkDescriptor, hr, hnorm]
  · intro hr
    simp [mkDescriptor, hr]
    decide

/-- Witness for C7 amended at the spec's worked example. -/
theorem ssh_normalization_amended_witness :
    ∃ d, scanOne healthyRepoEnv = some d ∧
      d.remoteUrl = "https://example.com/org/repo" := by
  obtain ⟨d, hd, -, -, hex⟩ := ssh_normalization_amended healthyRepoEnv rfl
  exact ⟨d, hd, hex rfl⟩

end GitBatchManager

namespace GitBatchManager

/-! ## BatchExecutor: GitWorker (src/main.py:32-218)

GitWorker.run walks the repository list, checks the cooperative running flag
at the top of each iteration, emits progress_signal(i+1, total), then
processes the repository, emitting update_signal log events.  Every
update_signal.emit inside one repository's processing passes that
repository's path, so a log message is modelled as text plus status and the
path is attached by the loop. -/

/-- Origin stream of a line observed by the real-time read loop. -/
inductive Src
  | out
  | err
deriving DecidableEq, Repr

/-- One update_signal payload apart from the repository path. -/
structure Msg where
  text : String
  status : String
deriving DecidableEq, Repr

/-- Observable behaviour of one subprocess started by
GitWorker._execute_git_command: exit code, the interleaved lines seen by the
readline loop tagged with their stream, and the remaining stdout/stderr
lines returned by communicate(). -/
structure CmdExec where
  returncode : Int
  streamed : List (Src × String)
  restOut : List String
  restErr : List String
deriving DecidableEq, Repr

/-- Python " ".join(cmd). -/
def cmdStr (cmd : List String) : String := String.intercalate (" ") cmd

/-- Events emitted by the real-time read loop (src/main.py:157-171):
stripped nonempty stdout lines as running, stderr lines as warning. -/
def streamEvents : List (Src × String) → List Msg
  | [] => []
  | (Src.out, l) :: rest =>
    if pyStrip l ≠ "" then ⟨("📝 ") ++ pyStrip l, "running"⟩ :: streamEvents rest
    else streamEvents rest
  | (Src.err, l) :: rest =>
    if pyStrip l ≠ "" then ⟨("⚠️ ") ++ pyStrip l, "warning"⟩ :: streamEvents rest
    else streamEvents rest

/-- The stdout lines the readline loop appends to output_lines
(src/main.py:160-165); stderr lines are never appended. -/
def streamedOut : List (Src × String) → List String
  | [] => []
  | (Src.out, l) :: rest =>
    if pyStrip l ≠ "" then pyStrip l :: streamedOut rest else streamedOut rest
  | (Src.err, _) :: rest => streamedOut rest

/-- The communicate() stdout remainder loop (src/main.py:175-180): each
nonempty line not already in output_lines is appended and emitted. -/
def restOutLoop : List String → List String → List String × List Msg
  | acc, [] => (acc, [])
  | acc, l :: rest =>
    if l ≠ "" ∧ l ∉ acc then
      let r := restOutLoop (acc ++ [l]) rest
      (r.1, ⟨("📝 ") ++ l, "running"⟩ :: r.2)
    else restOutLoop acc rest

/-- The communicate() stderr remainder loop (src/main.py:182-186). -/
def restErrEvents : List String → List Msg
  | [] => []
  | l :: rest =>
    if l ≠ "" then ⟨("⚠️ ") ++ l, "warning"⟩ :: restErrEvents rest
    else restErrEvents rest

/-- The ordered failure-hint pattern rules at src/main.py:196-208, matched
over output_lines only. -/
def failureHint (output_lines : List String) : String :=
  if output_lines.any (fun l => pyIn ("Permission denied") l) then
    ". Permission error: Check your SSH keys or credentials."
  else if output_lines.any (fun l => pyIn ("Authentication failed") l) then
    ". Authentication failed: Check your username/password or SSH keys."
  else if output_lines.any (fun l => pyIn ("Could not resolve host") l) then
    ". Network error: Could not resolve host. Check your network connection."
  else if output_lines.any (fun l => pyIn ("conflict") (pyLower l)) then
    ". Merge conflict detected: Please resolve conflicts manually."
  else if output_lines.any (fun l => pyIn ("nothing to commit") (pyLower l)) then
    ". No changes to commit."
  else if output_lines.any (fun l => pyIn ("up-to-date") (pyLower l)) then
    ". Already up-to-date."
  else ""

/-- Whether a single output line matches any of the six hint patterns. -/
def hintMatches (l : String) : Bool :=
  pyIn ("Permission denied") l || pyIn ("Authentication failed") l ||
  pyIn ("Could not resolve host") l || pyIn ("conflict") (pyLower l) ||
  pyIn ("nothing to commit") (pyLower l) || pyIn ("up-to-date") (pyLower l)

/-- The generic failure text at src/main.py:194, before any hint suffix. -/
def genericFail (rc : Int) (cmd : List String) : String :=
  ("❌ Command failed with code ") ++ toString rc ++ (": ") ++ cmdStr cmd

/-- GitWorker._execute_git_command (src/main.py:142-215): the messages it
emits in order and the success flag it returns. -/
def execGit (cmd : List String) (r : CmdExec) : List Msg × Bool :=
  let rest := restOutLoop (streamedOut r.streamed) r.restOut
  let preMsgs : List Msg :=
    ⟨("🔍 [DEBUG] Executing: ") ++ cmdStr cmd, "info"⟩ ::
      streamEvents r.streamed ++ rest.2 ++ restErrEvents r.restErr
  if r.returncode = 0 then
    (preMsgs ++ [⟨("✅ Command completed successfully: ") ++ cmdStr cmd, "info"⟩], true)
  else
    (preMsgs ++ [⟨genericFail r.returncode cmd ++ failureHint rest.1, "error"⟩], false)

/-- The operation selected for a batch run. -/
inductive Operation
  | pull
  | push
deriving DecidableEq, Repr

/-- Python self.operation. -/
def opName : Operation → String
  | .pull => "pull"
  | .push => "push"

/-- Python self.operation.capitalize(). -/
def opCap : Operation → String
  | .pull => "Pull"
  | .push => "Push"

/-- Observable results of every subprocess one repository's processing can
start in GitWorker.run (src/main.py:52-133). -/
structure RepoEnv where
  name : String
  path : String
  branchRc : Int
  branchOut : String
  hashRc : Int
  hashOut : String
  statusRc : Int
  statusOut : String
  pullExec : CmdExec
  addExec : CmdExec
  commitExec : CmdExec
  pushExec : CmdExec
  hash2Rc : Int
  hash2Out : String
  countRc : Int
  countOut : String
deriving DecidableEq, Repr

/-- current_branch at src/main.py:58-60. -/
def currentBranch (env : RepoEnv) : String :=
  if env.branchRc = 0 then pyStrip env.branchOut else "unknown"

/-- before_commit at src/main.py:64-66. -/
def beforeCommit (env : RepoEnv) : String :=
  if env.hashRc = 0 then pyStrip env.hashOut else "unknown"

/-- after_commit at src/main.py:105-106. -/
def afterCommit (env : RepoEnv) : String :=
  if env.hash2Rc = 0 then pyStrip env.hash2Out else "unknown"

/-- Terminal state of one repository's processing: error when a git command
failed (an error event was emitted and, for stage/commit, the sequence was
abandoned by continue), success when the success report ran. -/
inductive Outcome
  | success
  | error
deriving DecidableEq, Repr

/-- One repository's processing: the emitted messages, the argv of each
command routed through _execute_git_command in order, and the outcome. -/
structure RepoRun where
  msgs : List Msg
  cmds : List (List String)
  outcome : Outcome
deriving DecidableEq, Repr

/-- The success report block at src/main.py:103-133. -/
def successMsgs (op : Operation) (env : RepoEnv) : List Msg :=
  let b := beforeCommit env
  let a := afterCommit env
  if b ≠ a ∧ b ≠ "unknown" ∧ a ≠ "unknown" then
    match op with
    | .pull =>
      let cnt := if env.countRc = 0 then pyStrip env.countOut else "?"
      [⟨("✅ Pull completed successfully on branch \x27") ++ currentBranch env ++
        ("\x27. Changed from ") ++ b ++ (" to ") ++ a ++ (" (") ++ cnt ++
        (" new commits)"), "success"⟩]
    | .push =>
      [⟨("✅ Push completed successfully on branch \x27") ++ currentBranch env ++
        ("\x27. Pushed changes from ") ++ b ++ (" to ") ++ a, "success"⟩]
  else
    [⟨("✅ ") ++ opCap op ++ (" completed successfully on branch \x27") ++
      currentBranch env ++ ("\x27. No new changes."), "success"⟩]

/-- The four debug messages at src/main.py:54-67. -/
def dbgMsgs (op : Operation) (env : RepoEnv) : List Msg :=
  [⟨("🔍 [DEBUG] Starting ") ++ opName op ++ (" operation for ") ++ env.name ++
      ("..."), "info"⟩,
   ⟨("🔍 [DEBUG] Working directory: ") ++ env.path, "info"⟩,
   ⟨("🔍 [DEBUG] Current branch: ") ++ currentBranch env, "info"⟩,
   ⟨("🔍 [DEBUG] Current commit: ") ++ beforeCommit env, "info"⟩]

/-- The push step at src/main.py:99-101 plus the success report, shared by
all three entry paths into step 4. -/
def pushPhase (pre : List Msg) (cs : List (List String)) (env : RepoEnv) : RepoRun :=
  let pcmd := ["git", "push", "origin", currentBranch env]
  let ep := execGit pcmd env.pushExec
  let msgs := pre ++ ⟨("🚀 Pushing to remote origin/") ++ currentBranch env ++
    ("..."), "running"⟩ :: ep.1
  if ep.2 then ⟨msgs ++ successMsgs .push env, cs ++ [pcmd], .success⟩
  else ⟨msgs, cs ++ [pcmd], .error⟩

/-- The body of the GitWorker.run loop for one repository
(src/main.py:52-133). -/
def processRepo (op : Operation) (env : RepoEnv) : RepoRun :=
  match op with
  | .pull =>
    let e := execGit ["git", "pull"] env.pullExec
    let msgs := dbgMsgs op env ++ ⟨("📥 Pulling changes from remote..."), "running"⟩ :: e.1
    if e.2 then ⟨msgs ++ successMsgs .pull env, [["git", "pull"]], .success⟩
    else ⟨msgs, [["git", "pull"]], .error⟩
  | .push =>
    let hdr := dbgMsgs op env ++ [⟨("📤 Starting push sequence..."), "running"⟩]
    if env.statusRc = 0 then
      if pyStrip env.statusOut ≠ "" then
        let pre := hdr ++
          [⟨("🔍 [DEBUG] Found changes to commit:\n") ++ pyStrip env.statusOut, "info"⟩,
           ⟨("➕ Adding all changes (git add .)..."), "running"⟩]
        let ea := execGit ["git", "add", "."] env.addExec
        if ea.2 then
          let pre2 := pre ++ ea.1 ++
            [⟨("💾 Committing changes with message \x27batch update\x27..."), "running"⟩]
          let ec := execGit ["git", "commit", "-m", "batch update"] env.commitExec
          if ec.2 then
            pushPhase (pre2 ++ ec.1)
              [["git", "add", "."], ["git", "commit", "-m", "batch update"]] env
          else ⟨pre2 ++ ec.1,
            [["git", "add", "."], ["git", "commit", "-m", "batch update"]], .error⟩
        else ⟨pre ++ ea.1, [["git", "add", "."]], .error⟩
      else
        pushPhase (hdr ++ [⟨("ℹ️ No local changes to commit"), "info"⟩]) [] env
    else
      pushPhase hdr [] env

/-- Events observable from a batch run. -/
inductive Event
  | progress (current total : Nat)
  | log (repo : String) (m : Msg)
  | finished
deriving DecidableEq, Repr

/-- The GitWorker.run loop from index i (src/main.py:44-139): the running
flag is consulted at the top of each iteration; progress_signal fires before
the repository is processed. -/
def runFrom (op : Operation) (running : Nat → Bool) (total : Nat) :
    Nat → List RepoEnv → List Event
  | _, [] => []
  | i, r :: rest =>
    if running i then
      Event.progress (i + 1) total ::
        ((processRepo op r).msgs.map (fun m => Event.log r.path m) ++
          runFrom op running total (i + 1) rest)
    else []

/-- GitWorker.run (src/main.py:44-140): the full event trace, terminated by
finished_signal. -/
def runWorker (op : Operation) (repos : List RepoEnv) (running : Nat → Bool) :
    List Event :=
  runFrom op running repos.length 0 repos ++ [Event.finished]

/-- The current values carried by the progress events of a trace, in order. -/
def progressCurrents (tr : List Event) : List Nat :=
  tr.filterMap (fun e => match e with
    | Event.progress c _ => some c
    | _ => none)

/-- Whether an event is a progress event. -/
def isProgressEvent : Event → Bool
  | Event.progress _ _ => true
  | _ => false

/-- Whether an event is a repository log event. -/
def isLogEvent : Event → Bool
  | Event.log _ _ => true
  | _ => false

end GitBatchManager

namespace GitBatchManager

lemma pushPhase_cmds (pre : List Msg) (cs : List (List String)) (env : RepoEnv) :
    (pushPhase pre cs env).cmds =
      cs ++ [["git", "push", "origin", currentBranch env]] := by
  unfold pushPhase
  by_cases h : (execGit ["git", "push", "origin", currentBranch env] env.pushExec).2
  · simp [h]
  · simp [h]

lemma pushPhase_outcome (pre : List Msg) (cs : List (List String)) (env : RepoEnv) :
    (pushPhase pre cs env).outcome =
      if (execGit ["git", "push", "origin", currentBranch env] env.pushExec).2
      then Outcome.success else Outcome.error := by
  unfold pushPhase
  by_cases h : (execGit ["git", "push", "origin", currentBranch env] env.pushExec).2
  · simp [h]
  · simp [h]

end GitBatchManager

namespace GitBatchManager

/-- C4: on a push over a repository whose status query reports pending
changes, the executor runs stage-all, then commit with the fixed message,
then push, in that order; a stage or commit failure stops the sequence
before the push and the repository ends in error. -/
theorem push_sequence_order (env : RepoEnv)
    (hrc : env.statusRc = 0) (hch : pyStrip env.statusOut ≠ "") :
    ((execGit ["git", "add", "."] env.addExec).2 = true →
     (execGit ["git", "commit", "-m", "batch update"] env.commitExec).2 = true →
      (processRepo Operation.push env).cmds =
        [["git", "add", "."], ["git", "commit", "-m", "batch update"],
         ["git", "push", "origin", currentBranch env]]) ∧
    ((execGit ["git", "add", "."] env.addExec).2 = false →
      (processRepo Operation.push env).cmds = [["git", "add", "."]] ∧
      (processRepo Operation.push env).outcome = Outcome.error) ∧
    ((execGit ["git", "add", "."] env.addExec).2 = true →
     (execGit ["git", "commit", "-m", "batch update"] env.commitExec).2 = false →
      (processRepo Operation.push env).cmds =
        [["git", "add", "."], ["git", "commit", "-m", "batch update"]] ∧
      (processRepo Operation.push env).outcome = Outcome.error) := by
  refine ⟨?_, ?_, ?_⟩
  · intro h1 h2
    simp [processRepo, hrc, hch, h1, h2, pushPhase_cmds]
  · intro h1
    simp [processRepo, hrc, hch, h1]
  · intro h1 h2
    simp [processRepo, hrc, hch, h1, h2]

/-- A subprocess that exits cleanly with no output. -/
def okExec : CmdExec := { returncode := 0, streamed := [], restOut := [], restErr := [] }

/-- A subprocess that fails with no output. -/
def failExec : CmdExec := { returncode := 1, streamed := [], restOut := [], restErr := [] }

/-- A repository with pending working-tree changes where every git command
succeeds. -/
def repoChanges : RepoEnv :=
  { name := "r1", path := "/tmp/r1",
    branchRc := 0, branchOut := "main\n", hashRc := 0, hashOut := "abc1234\n",
    statusRc := 0, statusOut := " M a.txt\n",
    pullExec := okExec, addExec := okExec, commitExec := okExec, pushExec := okExec,
    hash2Rc := 0, hash2Out := "def5678\n", countRc := 0, countOut := "1\n" }

/-- Witness for C4: stage, commit, push in that order. -/
theorem push_sequence_order_witness :
    pyStrip repoChanges.statusOut ≠ "" ∧
    (processRepo Operation.push repoChanges).cmds =
      [["git", "add", "."], ["git", "commit", "-m", "batch update"],
       ["git", "push", "origin", "main"]] := by
  refine ⟨by decide, ?_⟩
  have h := (push_sequence_order repoChanges rfl (by decide)).1 (by decide) (by decide)
  have hb : currentBranch repoChanges = "main" := by decide
  rw [h, hb]

/-- C10: when the status query itself exits non-zero, no stage and no commit
are attempted; the executor proceeds directly to the push, whose result
alone fixes the outcome. -/
theorem status_failure_skips_to_push (env : RepoEnv) (h : env.statusRc ≠ 0) :
    (processRepo Operation.push env).cmds =
      [["git", "push", "origin", currentBranch env]] ∧
    (processRepo Operation.push env).outcome =
      (if (execGit ["git", "push", "origin", currentBranch env] env.pushExec).2
       then Outcome.success else Outcome.error) := by
  constructor
  · simp [processRepo, h, pushPhase_cmds]
  · simp [processRepo, h, pushPhase_outcome]

/-- A repository whose status query fails and whose push fails. -/
def repoStatusBroken : RepoEnv :=
  { repoChanges with statusRc := 1, pushExec := failExec }

/-- Witness for C10: broken status query goes straight to the push and the
failed push alone yields the error outcome. -/
theorem status_failure_skips_to_push_witness :
    repoStatusBroken.statusRc ≠ 0 ∧
    (processRepo Operation.push repoStatusBroken).cmds =
      [["git", "push", "origin", "main"]] ∧
    (processRepo Operation.push repoStatusBroken).outcome = Outcome.error := by
  refine ⟨by decide, ?_, ?_⟩
  · have h := (status_failure_skips_to_push repoStatusBroken (by decide)).1
    have hb : currentBranch repoStatusBroken = "main" := by decide
    rw [h, hb]
  · have h := (status_failure_skips_to_push repoStatusBroken (by decide)).2
    rw [h]
    decide

end GitBatchManager

namespace GitBatchManager

/-- Projection of a streamed line to its stdout payload. -/
def outLine : Src × String → Option String
  | (Src.out, l) => some l
  | (Src.err, _) => none

/-- The collected stdout lines computed from the stdout projection alone. -/
def onlyOut : List String → List String
  | [] => []
  | l :: rest => if pyStrip l ≠ "" then pyStrip l :: onlyOut rest else onlyOut rest

lemma streamedOut_eq_onlyOut (s : List (Src × String)) :
    streamedOut s = onlyOut (s.filterMap outLine) := by
  induction s with
  | nil => rfl
  | cons p rest ih =>
    obtain ⟨src, l⟩ := p
    cases src with
    | out =>
      by_cases hl : pyStrip l = ""
      · simp [streamedOut, List.filterMap_cons, outLine, onlyOut, hl, ih]
      · simp [streamedOut, List.filterMap_cons, outLine, onlyOut, hl, ih]
    | err => simp [streamedOut, List.filterMap_cons, outLine, ih]

lemma warning_mem_streamEvents (s : List (Src × String)) (l : String)
    (hmem : (Src.err, l) ∈ s) (hne : pyStrip l ≠ "") :
    Msg.mk (("⚠️ ") ++ pyStrip l) "warning" ∈ streamEvents s := by
  induction s with
  | nil => simp at hmem
  | cons p rest ih =>
    obtain ⟨src, l'⟩ := p
    rcases List.mem_cons.mp hmem with heq | htail
    · injection heq with h1 h2
      subst h1
      subst h2
      simp only [streamEvents]
      rw [if_pos hne]
      exact List.mem_cons_self _ _
    · cases src with
      | out =>
        by_cases h : pyStrip l' = ""
        · simp only [streamEvents]
          rw [if_neg (fun hc => hc h)]
          exact ih htail
        · simp only [streamEvents]
          rw [if_pos h]
          exact List.mem_cons_of_mem _ (ih htail)
      | err =>
        by_cases h : pyStrip l' = ""
        · simp only [streamEvents]
          rw [if_neg (fun hc => hc h)]
          exact ih htail
        · simp only [streamEvents]
          rw [if_pos h]
          exact List.mem_cons_of_mem _ (ih htail)

lemma streamEvents_mem_execGit (cmd : List String) (r : CmdExec) (m : Msg)
    (hm : m ∈ streamEvents r.streamed) : m ∈ (execGit cmd r).1 := by
  unfold execGit
  by_cases h : r.returncode = 0 <;>
    simp [h, List.mem_append, List.mem_cons] <;> tauto

lemma execGit_fail_getLast (cmd : List String) (r : CmdExec) (h : r.returncode ≠ 0) :
    (execGit cmd r).1.getLast? =
      some (Msg.mk (genericFail r.returncode cmd ++
        failureHint (restOutLoop (streamedOut r.streamed) r.restOut).1) "error") := by
  simp only [execGit]
  rw [if_neg h]
  exact List.getLast?_concat _

lemma hintMatches_parts (l : String) (h : hintMatches l = false) :
    pyIn ("Permission denied") l = false ∧
    pyIn ("Authentication failed") l = false ∧
    pyIn ("Could not resolve host") l = false ∧
    pyIn ("conflict") (pyLower l) = false ∧
    pyIn ("nothing to commit") (pyLower l) = false ∧
    pyIn ("up-to-date") (pyLower l) = false := by
  unfold hintMatches at h
  simp only [Bool.or_eq_false_iff] at h
  exact ⟨h.1.1.1.1.1, h.1.1.1.1.2, h.1.1.1.2, h.1.1.2, h.1.2, h.2⟩

lemma failureHint_empty (lines : List String)
    (h : ∀ l ∈ lines, hintMatches l = false) : failureHint lines = "" := by
  have h1 : lines.any (fun l => pyIn ("Permission denied") l) = false := by
    rw [List.any_eq_false]; intro x hx; simp [(hintMatches_parts x (h x hx)).1]
  have h2 : lines.any (fun l => pyIn ("Authentication failed") l) = false := by
    rw [List.any_eq_false]; intro x hx; simp [(hintMatches_parts x (h x hx)).2.1]
  have h3 : lines.any (fun l => pyIn ("Could not resolve host") l) = false := by
    rw [List.any_eq_false]; intro x hx; simp [(hintMatches_parts x (h x hx)).2.2.1]
  have h4 : lines.any (fun l => pyIn ("conflict") (pyLower l)) = false := by
    rw [List.any_eq_false]; intro x hx; simp [(hintMatches_parts x (h x hx)).2.2.2.1]
  have h5 : lines.any (fun l => pyIn ("nothing to commit") (pyLower l)) = false := by
    rw [List.any_eq_false]; intro x hx; simp [(hintMatches_parts x (h x hx)).2.2.2.2.1]
  have h6 : lines.any (fun l => pyIn ("up-to-date") (pyLower l)) = false := by
    rw [List.any_eq_false]; intro x hx; simp [(hintMatches_parts x (h x hx)).2.2.2.2.2]
  simp [failureHint, h1, h2, h3, h4, h5, h6]

end GitBatchManager

namespace GitBatchManager

/-- C9: failure-hint matching reads only the lines captured from stdout —
replacing the stderr portions of a failed command's output never changes the
final error message; every nonempty streamed stderr line surfaces as a
warning event; and when no captured stdout line matches a pattern the final
event carries exactly the generic failure message. -/
theorem stderr_never_in_hints (cmd : List String) (r rAlt : CmdExec)
    (hrc : r.returncode ≠ 0)
    (hrc2 : rAlt.returncode = r.returncode)
    (hout : rAlt.streamed.filterMap outLine = r.streamed.filterMap outLine)
    (hrest : rAlt.restOut = r.restOut) :
    ((execGit cmd rAlt).1.getLast? = (execGit cmd r).1.getLast?) ∧
    (∀ l, (Src.err, l) ∈ r.streamed → pyStrip l ≠ "" →
      Msg.mk (("⚠️ ") ++ pyStrip l) "warning" ∈ (execGit cmd r).1) ∧
    ((∀ l ∈ (restOutLoop (streamedOut r.streamed) r.restOut).1, hintMatches l = false) →
      (execGit cmd r).1.getLast? =
        some (Msg.mk (genericFail r.returncode cmd) "error")) := by
  have hrcAlt : rAlt.returncode ≠ 0 := by rw [hrc2]; exact hrc
  refine ⟨?_, ?_, ?_⟩
  · rw [execGit_fail_getLast cmd r hrc, execGit_fail_getLast cmd rAlt hrcAlt, hrc2,
      streamedOut_eq_onlyOut, streamedOut_eq_onlyOut, hout, hrest]
  · intro l hl hne
    exact streamEvents_mem_execGit cmd r _ (warning_mem_streamEvents r.streamed l hl hne)
  · intro hno
    rw [execGit_fail_getLast cmd r hrc, failureHint_empty _ hno]
    simp

/-- A failed push whose only diagnostic text arrives on stderr. -/
def stderrOnlyExec : CmdExec :=
  { returncode := 1,
    streamed := [(Src.err, "Permission denied (publickey).")],
    restOut := [],
    restErr := ["fatal: Could not read from remote repository."] }

/-- The same failure with the stderr portions removed. -/
def noStderrExec : CmdExec :=
  { returncode := 1, streamed := [], restOut := [], restErr := [] }

/-- Witness for C9: the stderr-only diagnostic surfaces as a warning yet the
final event is the generic failure message, identical to the run with no
stderr at all. -/
theorem stderr_never_in_hints_witness :
    Msg.mk ("⚠️ Permission denied (publickey).") "warning" ∈
      (execGit ["git", "push"] stderrOnlyExec).1 ∧
    (execGit ["git", "push"] noStderrExec).1.getLast? =
      (execGit ["git", "push"] stderrOnlyExec).1.getLast? ∧
    (execGit ["git", "push"] stderrOnlyExec).1.getLast? =
      some (Msg.mk (genericFail 1 ["git", "push"]) "error") := by
  obtain ⟨h1, h2, h3⟩ := stderr_never_in_hints ["git", "push"] stderrOnlyExec noStderrExec
    (by decide) rfl rfl rfl
  refine ⟨?_, h1, ?_⟩
  · have := h2 ("Permission denied (publickey).") (by decide) (by decide)
    simpa using this
  · have := h3 (by decide)
    simpa using this

end GitBatchManager

namespace GitBatchManager

lemma progressCurrents_append (t1 t2 : List Event) :
    progressCurrents (t1 ++ t2) = progressCurrents t1 ++ progressCurrents t2 := by
  simp [progressCurrents]

lemma progressCurrents_map_log (p : String) (ms : List Msg) :
    progressCurrents (ms.map (fun m => Event.log p m)) = [] := by
  induction ms with
  | nil => rfl
  | cons m rest ih => simp [progressCurrents, List.filterMap_cons, ih]

lemma progressCurrents_runFrom_cons (op : Operation) (running : Nat → Bool)
    (total : Nat) (r : RepoEnv) (rest : List RepoEnv) (i : Nat)
    (hr : running i = true) :
    progressCurrents (runFrom op running total i (r :: rest)) =
      (i + 1) :: progressCurrents (runFrom op running total (i + 1) rest) := by
  simp only [runFrom, hr, if_true, progressCurrents, List.filterMap_cons,
    List.filterMap_append]
  rw [show (List.filterMap (fun e => match e with
        | Event.progress c _ => some c
        | _ => none) ((processRepo op r).msgs.map (fun m => Event.log r.path m))) =
      progressCurrents ((processRepo op r).msgs.map (fun m => Event.log r.path m)) from rfl,
    progressCurrents_map_log]
  rfl

lemma progressCurrents_runFrom_lb (op : Operation) (running : Nat → Bool)
    (total : Nat) :
    ∀ (repos : List RepoEnv) (i x : Nat),
      x ∈ progressCurrents (runFrom op running total i repos) → i < x := by
  intro repos
  induction repos with
  | nil => intro i x hx; simp [runFrom, progressCurrents] at hx
  | cons r rest ih =>
    intro i x hx
    by_cases hr : running i
    · rw [progressCurrents_runFrom_cons op running total r rest i hr] at hx
      rcases List.mem_cons.mp hx with rfl | hx
      · omega
      · have := ih (i + 1) x hx
        omega
    · simp [runFrom, hr, progressCurrents] at hx

lemma progressCurrents_runFrom_chain (op : Operation) (running : Nat → Bool)
    (total : Nat) :
    ∀ (repos : List RepoEnv) (i : Nat),
      List.Chain' (· < ·) (progressCurrents (runFrom op running total i repos)) := by
  intro repos
  induction repos with
  | nil => intro i; simp [runFrom, progressCurrents]
  | cons r rest ih =>
    intro i
    by_cases hr : running i
    · rw [progressCurrents_runFrom_cons op running total r rest i hr,
        List.chain'_cons']
      refine ⟨fun y hy => ?_, ih (i + 1)⟩
      have hmem : y ∈ progressCurrents (runFrom op running total (i + 1) rest) :=
        List.mem_of_mem_head? hy
      have := progressCurrents_runFrom_lb op running total rest (i + 1) y hmem
      omega
    · simp [runFrom, hr, progressCurrents]

lemma runFrom_segment (op : Operation) (running : Nat → Bool) (total : Nat) :
    ∀ (repos : List RepoEnv) (s i : Nat) (h : i < repos.length),
      (∀ j, j ≤ i → running (s + j) = true) →
      ∃ pre post, runFrom op running total s repos =
        pre ++ Event.progress (s + i + 1) total ::
          ((processRepo op (repos.get ⟨i, h⟩)).msgs.map
              (fun m => Event.log (repos.get ⟨i, h⟩).path m) ++ post) := by
  intro repos
  induction repos with
  | nil => intro s i h; exact absurd h (by simp)
  | cons r rest ih =>
    intro s i h hrun
    cases i with
    | zero =>
      have hr : running s = true := by simpa using hrun 0 (Nat.le_refl 0)
      refine ⟨[], runFrom op running total (s + 1) rest, ?_⟩
      simp [runFrom, hr]
    | succ n =>
      have hr : running s = true := by simpa using hrun 0 (Nat.zero_le _)
      have h' : n < rest.length := Nat.lt_of_succ_lt_succ (by simpa using h)
      obtain ⟨pre, post, hp⟩ := ih (s + 1) n h' (fun j hj => by
        have := hrun (j + 1) (Nat.succ_le_succ hj)
        have harg : s + (j + 1) = s + 1 + j := by omega
        rwa [harg] at this)
      refine ⟨Event.progress (s + 1) total ::
          ((processRepo op r).msgs.map (fun m => Event.log r.path m) ++ pre), post, ?_⟩
      have harith : s + 1 + n + 1 = s + (n + 1) + 1 := by omega
      simp only [runFrom, hr, if_true, hp, harith, List.get_cons_succ,
        List.cons_append, List.append_assoc]

end GitBatchManager

namespace GitBatchManager

/-- C5 amended: the progress currents of a batch run are strictly increasing,
and the progress event (i+1, total) is emitted immediately before — not
after — repository i's processing: the trace splits as
pre ++ progress :: (that repository's log events ++ post). -/
theorem progress_before_each_repo (op : Operation) (repos : List RepoEnv)
    (running : Nat → Bool) :
    List.Chain' (· < ·) (progressCurrents (runWorker op repos running)) ∧
    ∀ i (h : i < repos.length), (∀ j, j ≤ i → running j = true) →
      ∃ pre post, runWorker op repos running =
        pre ++ Event.progress (i + 1) repos.length ::
          ((processRepo op (repos.get ⟨i, h⟩)).msgs.map
              (fun m => Event.log (repos.get ⟨i, h⟩).path m) ++ post) := by
  constructor
  · rw [runWorker, progressCurrents_append]
    have h2 : progressCurrents [Event.finished] = [] := rfl
    rw [h2, List.append_nil]
    exact progressCurrents_runFrom_chain op running repos.length repos 0
  · intro i h hrun
    obtain ⟨pre, post, hp⟩ := runFrom_segment op running repos.length repos 0 i h
      (fun j hj => by simpa using hrun j hj)
    refine ⟨pre, post ++ [Event.finished], ?_⟩
    rw [runWorker, hp]
    simp [List.append_assoc]

/-- A repository already up to date, every command succeeding. -/
def pullRepoA : RepoEnv :=
  { name := "r1", path := "/tmp/r1", branchRc := 0, branchOut := "main\n",
    hashRc := 0, hashOut := "abc1234\n", statusRc := 0, statusOut := "",
    pullExec := okExec, addExec := okExec, commitExec := okExec, pushExec := okExec,
    hash2Rc := 0, hash2Out := "abc1234\n", countRc := 0, countOut := "0\n" }

/-- The running flag held true. -/
def alwaysRun : Nat → Bool := fun _ => true

/-- Witness for C5 amended: a single-repository pull run. -/
theorem progress_before_each_repo_witness :
    List.Chain' (· < ·)
      (progressCurrents (runWorker Operation.pull [pullRepoA] alwaysRun)) ∧
    ∃ pre post, runWorker Operation.pull [pullRepoA] alwaysRun =
      pre ++ Event.progress 1 1 ::
        ((processRepo Operation.pull pullRepoA).msgs.map
            (fun m => Event.log pullRepoA.path m) ++ post) := by
  have h := progress_before_each_repo Operation.pull [pullRepoA] alwaysRun
  refine ⟨h.1, ?_⟩
  obtain ⟨pre, post, hp⟩ := h.2 0 (by decide) (fun j hj => rfl)
  exact ⟨pre, post, hp⟩

/-- The trace of a one-repository pull run with the flag held true. -/
def soloTrace : List Event := runWorker Operation.pull [pullRepoA] (fun _ => true)

/-- C5 counterexample: in this run the only progress event precedes every log
event of the repository, so no progress event is emitted after the
repository's processing completes. -/
theorem progress_after_processing_counterexample :
    soloTrace.head? = some (Event.progress 1 1) ∧
    ¬ ∃ j : Fin soloTrace.length, isProgressEvent (soloTrace.get j) = true ∧
        ∀ k : Fin soloTrace.length, isLogEvent (soloTrace.get k) = true →
          (k : Nat) < (j : Nat) := by
  constructor
  · rfl
  · decide

end GitBatchManager

namespace GitBatchManager

lemma runFrom_stop (op : Operation) (running : Nat → Bool) (total : Nat) :
    ∀ (repos : List RepoEnv) (i N : Nat), i ≤ N → running N = false →
      (∀ p m, Event.log p m ∈ runFrom op running total i repos →
        p ∈ (repos.take (N - i)).map RepoEnv.path) ∧
      (∀ c t, Event.progress c t ∈ runFrom op running total i repos → c ≤ N) := by
  intro repos
  induction repos with
  | nil =>
    intro i N hiN hN
    constructor <;> intro a b hmem <;> simp [runFrom] at hmem
  | cons r rest ih =>
    intro i N hiN hN
    by_cases hr : running i
    · have hiN2 : i < N := by
        rcases Nat.lt_or_ge i N with hc | hc
        · exact hc
        · have he : i = N := Nat.le_antisymm hiN hc
          rw [he, hN] at hr
          exact absurd hr (by simp)
      have hIH := ih (i + 1) N hiN2 hN
      constructor
      · intro p m hmem
        simp only [runFrom, hr, if_true, List.mem_cons, List.mem_append,
          List.mem_map] at hmem
        have htake : N - i = (N - (i + 1)) + 1 := by omega
        rw [htake]
        simp only [List.take_succ_cons, List.map_cons, List.mem_cons]
        rcases hmem with h1 | h2 | h3
        · simp at h1
        · obtain ⟨a, ha, heq⟩ := h2
          injection heq with hpath hmsg
          exact Or.inl hpath.symm
        · exact Or.inr (hIH.1 p m h3)
      · intro c t hmem
        simp only [runFrom, hr, if_true, List.mem_cons, List.mem_append,
          List.mem_map] at hmem
        rcases hmem with h1 | h2 | h3
        · injection h1 with hc ht
          omega
        · obtain ⟨a, ha, heq⟩ := h2
          simp at heq
        · exact hIH.2 c t h3
    · constructor <;> intro a b hmem <;> simp [runFrom, hr] at hmem

end GitBatchManager

namespace GitBatchManager

/-- C8: once the running flag is false at index N, the loop breaks at the top
of that iteration: every log event in the trace belongs to one of the first N
repositories and every progress current is at most N — nothing is emitted for
repositories N+1..M. -/
theorem cancel_stops_queue (op : Operation) (repos : List RepoEnv)
    (running : Nat → Bool) (N : Nat) (hN : running N = false) :
    (∀ p m, Event.log p m ∈ runWorker op repos running →
      p ∈ (repos.take N).map RepoEnv.path) ∧
    (∀ c t, Event.progress c t ∈ runWorker op repos running → c ≤ N) := by
  have h := runFrom_stop op running repos.length repos 0 N (Nat.zero_le N) hN
  constructor
  · intro p m hmem
    rw [runWorker] at hmem
    rcases List.mem_append.mp hmem with h1 | h2
    · have := h.1 p m h1
      simpa using this
    · simp at h2
  · intro c t hmem
    rw [runWorker] at hmem
    rcases List.mem_append.mp hmem with h1 | h2
    · exact h.2 c t h1
    · simp at h2

/-- A second repository, distinguishable by its path. -/
def pullRepoB : RepoEnv := { pullRepoA with name := "r2", path := "/tmp/r2" }

/-- The stop flag set after the first repository. -/
def stopAfterOne : Nat → Bool := fun i => decide (i < 1)

/-- Witness for C8: with the flag cleared at index 1, no event of the second
repository is emitted. -/
theorem cancel_stops_queue_witness :
    stopAfterOne 1 = false ∧
    Event.log ("/tmp/r2") (Msg.mk ("x") ("info")) ∉
      runWorker Operation.pull [pullRepoA, pullRepoB] stopAfterOne := by
  refine ⟨rfl, fun hmem => ?_⟩
  have h := (cancel_stops_queue Operation.pull [pullRepoA, pullRepoB]
    stopAfterOne 1 rfl).1 ("/tmp/r2") (Msg.mk ("x") ("info")) hmem
  revert h
  decide

end GitBatchManager
